import Mathlib

/-!
Shallow embedding of the analytical core of the `make_spark_example` repository:
the data-cleaning step (`DataLoader.clean_data`) and the analysis transforms of
`src/src/analysis/tasks.py` (`MerchantAnalysis`).  Tables are lists of records,
Spark SQL numeric columns are modelled as exact rationals `ℚ`, nullable columns
as `Option`, and timestamps as calendar records.  Spark specifics that matter
to the claims are modelled explicitly:

* `F.round(c, 2)` is BigDecimal HALF_UP rounding (half away from zero): `round2`;
* SQL division returns NULL when the divisor is zero (default, non-ANSI
  semantics): `sparkDiv`;
* `F.dense_rank().over(window)` assigns `1 +` the number of distinct `orderBy`
  key values strictly preceding the row's key within its partition: `denseRank`;
* `orderBy` on string columns compares strings by their character sequence
  (binary/codepoint order, as Spark's UTF8String comparison): `cmpLO` on
  `List Char`;
* ascending `orderBy` places NULLs first: `cmpOpt`.
-/

open Batteries (OrientedCmp TransCmp)

/-- Spark/Java BigDecimal HALF_UP rounding to an integer: round half away from zero. -/
def roundHalfUp (q : ℚ) : ℤ := if 0 ≤ q then ⌊q + 1/2⌋ else -⌊1/2 - q⌋

/-- `F.round(c, 2)`: HALF_UP rounding to two decimal places. -/
def round2 (q : ℚ) : ℚ := (roundHalfUp (q * 100) : ℚ) / 100

/-- Spark SQL `Divide` under default (non-ANSI) semantics: NULL on a zero divisor. -/
def sparkDiv (a b : ℚ) : Option ℚ := if b = 0 then none else some (a / b)

theorem roundHalfUp_intCast (z : ℤ) : roundHalfUp (z : ℚ) = z := by
  have hhalf : (⌊(1:ℚ)/2⌋ : ℤ) = 0 := by
    rw [Int.floor_eq_iff]
    norm_num
  unfold roundHalfUp
  split_ifs with h
  · rw [show ((z : ℚ) + 1/2) = ((z : ℤ) : ℚ) + (1/2 : ℚ) by ring, Int.floor_int_add]
    omega
  · rw [show ((1:ℚ)/2 - z) = ((-z : ℤ) : ℚ) + (1/2 : ℚ) by push_cast; ring,
      Int.floor_int_add]
    omega

theorem round2_eq_of_mul_hundred (q : ℚ) (z : ℤ) (h : q * 100 = (z : ℚ)) :
    round2 q = (z : ℚ) / 100 := by
  unfold round2
  rw [h, roundHalfUp_intCast]

theorem round2_zero : round2 0 = 0 := by
  have := round2_eq_of_mul_hundred 0 0 (by norm_num)
  simpa using this

theorem roundHalfUp_mono {a b : ℚ} (h : a ≤ b) : roundHalfUp a ≤ roundHalfUp b := by
  unfold roundHalfUp
  split_ifs with ha hb
  · exact Int.floor_le_floor (by linarith)
  · exact absurd (ha.trans h) hb
  · have h1 : (0:ℤ) ≤ ⌊b + 1/2⌋ := by
      have : ((0:ℤ) : ℚ) ≤ b + 1/2 := by push_cast; linarith
      exact Int.le_floor.mpr this
    have h2 : (0:ℤ) ≤ ⌊1/2 - a⌋ := by
      have : ((0:ℤ) : ℚ) ≤ 1/2 - a := by push_cast; linarith [lt_of_not_le ha]
      exact Int.le_floor.mpr this
    omega
  · have := Int.floor_le_floor (show (1:ℚ)/2 - b ≤ 1/2 - a by linarith)
    omega

theorem round2_mono {a b : ℚ} (h : a ≤ b) : round2 a ≤ round2 b := by
  unfold round2
  have := roundHalfUp_mono (show a * 100 ≤ b * 100 by linarith)
  have hc : ((roundHalfUp (a * 100) : ℚ)) ≤ (roundHalfUp (b * 100) : ℚ) := by
    exact_mod_cast this
  linarith

/-! ### Three-way comparators

Spark's multi-column `orderBy` is modelled by lexicographic composition
(`compareLex`) of per-column comparators.  `cmpLO` compares values of a linear
order, `cmpOpt` lifts a comparator to nullable columns with NULLs first,
`cmpOn` compares through a projection. -/

/-- Three-way comparison in a linear order. -/
def cmpLO {α : Type} [LinearOrder α] (a b : α) : Ordering :=
  if a < b then .lt else if a = b then .eq else .gt

/-- Comparator for a nullable column under Spark's ascending sort: NULLs first. -/
def cmpOpt {α : Type} (cmp : α → α → Ordering) : Option α → Option α → Ordering
  | none, none => .eq
  | none, some _ => .lt
  | some _, none => .gt
  | some a, some b => cmp a b

/-- Compare through a projection (one sort column of a row). -/
def cmpOn {α κ : Type} (cmp : κ → κ → Ordering) (f : α → κ) (a b : α) : Ordering :=
  cmp (f a) (f b)

theorem cmpLO_eq_lt {α : Type} [LinearOrder α] {a b : α} : cmpLO a b = .lt ↔ a < b := by
  unfold cmpLO
  split_ifs with h1 h2
  · simpa using h1
  · subst h2; simp [lt_self_iff_false]
  · simp [h1]

theorem cmpLO_eq_eq {α : Type} [LinearOrder α] {a b : α} : cmpLO a b = .eq ↔ a = b := by
  unfold cmpLO
  split_ifs with h1 h2
  · simp [ne_of_lt h1]
  · simp [h2]
  · simp [h2]

theorem cmpLO_eq_gt {α : Type} [LinearOrder α] {a b : α} : cmpLO a b = .gt ↔ b < a := by
  unfold cmpLO
  split_ifs with h1 h2
  · simp [lt_asymm h1]
  · subst h2; simp [lt_self_iff_false]
  · simp [lt_of_le_of_ne (not_lt.mp h1) (Ne.symm h2)]

theorem cmpLO_ne_gt {α : Type} [LinearOrder α] {a b : α} : cmpLO a b ≠ .gt ↔ a ≤ b := by
  rw [Ne, cmpLO_eq_gt, not_lt]

instance {α : Type} [LinearOrder α] : TransCmp (cmpLO (α := α)) where
  symm a b := by
    rcases lt_trichotomy a b with h | h | h
    · rw [cmpLO_eq_lt.mpr h, cmpLO_eq_gt.mpr h]; rfl
    · rw [cmpLO_eq_eq.mpr h, cmpLO_eq_eq.mpr h.symm]; rfl
    · rw [cmpLO_eq_gt.mpr h, cmpLO_eq_lt.mpr h]; rfl
  le_trans h1 h2 := cmpLO_ne_gt.mpr ((cmpLO_ne_gt.mp h1).trans (cmpLO_ne_gt.mp h2))

instance {α : Type} (cmp : α → α → Ordering) [TransCmp cmp] : TransCmp (cmpOpt cmp) where
  symm a b := by
    cases a <;> cases b <;> simp [cmpOpt, Ordering.swap]
    exact OrientedCmp.symm _ _
  le_trans {a b c} h1 h2 := by
    cases a <;> cases b <;> cases c <;> simp_all [cmpOpt]
    exact TransCmp.le_trans h1 h2

instance {α κ : Type} (cmp : κ → κ → Ordering) (f : α → κ) [inst : TransCmp cmp] :
    TransCmp (cmpOn cmp f) where
  symm a b := OrientedCmp.symm (f a) (f b)
  le_trans h1 h2 := inst.le_trans h1 h2

/-- The non-strict relation a sort by comparator `cmp` establishes. -/
def cmpLe {α : Type} (cmp : α → α → Ordering) (a b : α) : Prop := cmp a b ≠ .gt

instance {α : Type} (cmp : α → α → Ordering) : DecidableRel (cmpLe cmp) := fun a b =>
  inferInstanceAs (Decidable (cmp a b ≠ .gt))

/-- Spark `orderBy` with comparator `cmp`, modelled as a (stable) sort. -/
def sortByCmp {α : Type} (cmp : α → α → Ordering) (l : List α) : List α :=
  List.insertionSort (cmpLe cmp) l

theorem sortByCmp_perm {α : Type} (cmp : α → α → Ordering) (l : List α) :
    (sortByCmp cmp l).Perm l :=
  List.perm_insertionSort _ l

theorem mem_sortByCmp {α : Type} {cmp : α → α → Ordering} {l : List α} {a : α} :
    a ∈ sortByCmp cmp l ↔ a ∈ l :=
  List.mem_insertionSort _

theorem sortByCmp_length {α : Type} (cmp : α → α → Ordering) (l : List α) :
    (sortByCmp cmp l).length = l.length :=
  (sortByCmp_perm cmp l).length_eq

theorem sortByCmp_sorted {α : Type} (cmp : α → α → Ordering) [TransCmp cmp] (l : List α) :
    (sortByCmp cmp l).Sorted (cmpLe cmp) := by
  haveI : IsTotal α (cmpLe cmp) := ⟨fun a b => by
    by_cases h : cmp a b = .gt
    · exact Or.inr (by simp [cmpLe, OrientedCmp.cmp_eq_gt.mp h])
    · exact Or.inl h⟩
  haveI : IsTrans α (cmpLe cmp) := ⟨fun a b c h1 h2 => TransCmp.le_trans h1 h2⟩
  exact List.sorted_insertionSort _ l

/-! ### Dense rank -/

/-- `F.dense_rank().over(window)`: one plus the number of distinct `orderBy`-key
values that strictly precede `k` (with respect to the window's strict order
`gt`) among the partition's key values `keys`. -/
def denseRank {κ : Type} [DecidableEq κ] (gt : κ → κ → Bool) (keys : List κ) (k : κ) : ℕ :=
  (keys.toFinset.filter (fun x => gt x k = true)).card + 1

/-- Strict orders used by the windows: asymmetric, transitive, total on distinct keys. -/
structure WindowOrder {κ : Type} (gt : κ → κ → Bool) : Prop where
  asymm : ∀ a b, gt a b = true → gt b a ≠ true
  trans : ∀ a b c, gt a b = true → gt b c = true → gt a c = true
  total : ∀ a b, a ≠ b → gt a b = true ∨ gt b a = true

theorem WindowOrder.irrefl {κ : Type} {gt : κ → κ → Bool} (hw : WindowOrder gt) (a : κ) :
    gt a a ≠ true := fun h => hw.asymm a a h h

theorem denseRank_pos {κ : Type} [DecidableEq κ] (gt : κ → κ → Bool) (keys : List κ) (k : κ) :
    1 ≤ denseRank gt keys k :=
  Nat.le_add_left 1 _

theorem denseRank_lt_of_gt {κ : Type} [DecidableEq κ] {gt : κ → κ → Bool}
    (hw : WindowOrder gt) {keys : List κ} {a b : κ} (ha : a ∈ keys)
    (hgt : gt a b = true) : denseRank gt keys a < denseRank gt keys b := by
  unfold denseRank
  have hsub : keys.toFinset.filter (fun x => gt x a = true) ⊆
      keys.toFinset.filter (fun x => gt x b = true) := by
    intro x hx
    rw [Finset.mem_filter] at hx ⊢
    exact ⟨hx.1, hw.trans x a b hx.2 hgt⟩
  have hmem : a ∈ keys.toFinset.filter (fun x => gt x b = true) := by
    rw [Finset.mem_filter]
    exact ⟨List.mem_toFinset.mpr ha, hgt⟩
  have hnot : a ∉ keys.toFinset.filter (fun x => gt x a = true) := by
    rw [Finset.mem_filter]
    exact fun h => hw.irrefl a h.2
  have : keys.toFinset.filter (fun x => gt x a = true) ⊂
      keys.toFinset.filter (fun x => gt x b = true) :=
    ⟨hsub, fun hrev => hnot (hrev hmem)⟩
  have := Finset.card_lt_card this
  omega

theorem denseRank_le_card {κ : Type} [DecidableEq κ] {gt : κ → κ → Bool}
    (hw : WindowOrder gt) {keys : List κ} {a : κ} (ha : a ∈ keys) :
    denseRank gt keys a ≤ keys.toFinset.card := by
  unfold denseRank
  have hsub : keys.toFinset.filter (fun x => gt x a = true) ⊆ keys.toFinset.erase a := by
    intro x hx
    rw [Finset.mem_filter] at hx
    rw [Finset.mem_erase]
    refine ⟨fun hxa => ?_, hx.1⟩
    subst hxa
    exact hw.irrefl x hx.2
  have h1 := Finset.card_le_card hsub
  have h2 := Finset.card_erase_of_mem (List.mem_toFinset.mpr ha)
  have h3 : 1 ≤ keys.toFinset.card := Finset.card_pos.mpr ⟨a, List.mem_toFinset.mpr ha⟩
  omega

theorem denseRank_injOn {κ : Type} [DecidableEq κ] {gt : κ → κ → Bool}
    (hw : WindowOrder gt) {keys : List κ} {a b : κ} (ha : a ∈ keys) (hb : b ∈ keys)
    (h : denseRank gt keys a = denseRank gt keys b) : a = b := by
  by_contra hne
  rcases hw.total a b hne with hgt | hgt
  · exact absurd h (Nat.ne_of_lt (denseRank_lt_of_gt hw ha hgt))
  · exact absurd h.symm (Nat.ne_of_lt (denseRank_lt_of_gt hw hb hgt))

theorem denseRank_surj {κ : Type} [DecidableEq κ] {gt : κ → κ → Bool}
    (hw : WindowOrder gt) (keys : List κ) {v : ℕ} (h1 : 1 ≤ v)
    (h2 : v ≤ keys.toFinset.card) : ∃ a ∈ keys, denseRank gt keys a = v := by
  have hinj : Set.InjOn (denseRank gt keys) keys.toFinset := by
    intro a ha b hb hab
    exact denseRank_injOn hw (List.mem_toFinset.mp ha) (List.mem_toFinset.mp hb) hab
  have hcard : (keys.toFinset.image (denseRank gt keys)).card = keys.toFinset.card :=
    Finset.card_image_of_injOn hinj
  have hsub : keys.toFinset.image (denseRank gt keys) ⊆ Finset.Icc 1 keys.toFinset.card := by
    intro x hx
    rw [Finset.mem_image] at hx
    obtain ⟨a, ha, rfl⟩ := hx
    rw [Finset.mem_Icc]
    exact ⟨denseRank_pos gt keys a, denseRank_le_card hw (List.mem_toFinset.mp ha)⟩
  have heq : keys.toFinset.image (denseRank gt keys) = Finset.Icc 1 keys.toFinset.card := by
    apply Finset.eq_of_subset_of_card_le hsub
    rw [hcard, Nat.card_Icc]
    omega
  have hv : v ∈ keys.toFinset.image (denseRank gt keys) := by
    rw [heq, Finset.mem_Icc]
    exact ⟨h1, h2⟩
  rw [Finset.mem_image] at hv
  obtain ⟨a, ha, hav⟩ := hv
  exact ⟨a, List.mem_toFinset.mp ha, hav⟩

theorem denseRank_kept_card_le {κ : Type} [DecidableEq κ] {gt : κ → κ → Bool}
    (hw : WindowOrder gt) (keys : List κ) (N : ℕ) :
    (keys.toFinset.filter (fun k => denseRank gt keys k ≤ N)).card ≤ N := by
  set S := keys.toFinset.filter (fun k => denseRank gt keys k ≤ N) with hS
  have hinj : Set.InjOn (denseRank gt keys) S := by
    intro a ha b hb hab
    rw [hS, Finset.coe_filter, Set.mem_setOf_eq] at ha hb
    exact denseRank_injOn hw (List.mem_toFinset.mp ha.1) (List.mem_toFinset.mp hb.1) hab
  have hcard : (S.image (denseRank gt keys)).card = S.card := Finset.card_image_of_injOn hinj
  have hsub : S.image (denseRank gt keys) ⊆ Finset.Icc 1 N := by
    intro x hx
    rw [Finset.mem_image] at hx
    obtain ⟨a, ha, rfl⟩ := hx
    rw [hS, Finset.mem_filter] at ha
    rw [Finset.mem_Icc]
    exact ⟨denseRank_pos gt keys a, ha.2⟩
  have := Finset.card_le_card hsub
  rw [hcard, Nat.card_Icc] at this
  omega

/-! ### Data model

Timestamps are calendar records.  `month` is zero-based (`⟨0, _⟩` = January), so
Spark's `F.month` is `month.val + 1` and `F.hour` is `hour.val`.  The model
covers four-digit years (0–9999), the range on which the `MMM yyyy` rendering
used by Task 1 is the standard zero-padded one. -/

structure Timestamp where
  year : Fin 10000
  month : Fin 12
  day : ℕ
  hour : Fin 24
  minute : ℕ
deriving DecidableEq

/-- A raw transaction record (`sample_transactions_schema`). -/
structure RawTransaction where
  merchant_id : String
  purchase_amount : ℚ
  purchase_date : Timestamp
  category : Option String
  installments : Option ℤ
deriving DecidableEq

/-- A raw merchant record (`sample_merchants_schema`); `merchant_id` may repeat. -/
structure RawMerchant where
  merchant_id : String
  merchant_name : Option String
  city_id : Option ℤ
  state_id : Option ℤ
deriving DecidableEq

/-- A cleaned (canonical) transaction row, the input of every analysis task. -/
structure CanonicalTransaction where
  merchant_id : String
  merchant_name : String
  city_id : Option ℤ
  state_id : Option ℤ
  category : String
  purchase_date : Timestamp
  purchase_amount : ℚ
  installments : Option ℤ
deriving DecidableEq

/-- English three-letter month names as produced by `date_format(_, "MMM yyyy")`. -/
def monthName (m : Fin 12) : String :=
  match m.val with
  | 0 => "Jan" | 1 => "Feb" | 2 => "Mar" | 3 => "Apr" | 4 => "May" | 5 => "Jun"
  | 6 => "Jul" | 7 => "Aug" | 8 => "Sep" | 9 => "Oct" | 10 => "Nov" | _ => "Dec"

/-- The `yyyy` pattern: the year zero-padded to four decimal digits. -/
def yearString (y : Fin 10000) : String :=
  ⟨[Nat.digitChar (y.val / 1000), Nat.digitChar (y.val / 100 % 10),
    Nat.digitChar (y.val / 10 % 10), Nat.digitChar (y.val % 10)]⟩

/-- `date_format(concat(year, "-", month, "-01"), "MMM yyyy")`. -/
def formatMMMyyyy (y : Fin 10000) (m : Fin 12) : String :=
  monthName m ++ " " ++ yearString y

theorem monthName_data_inj : ∀ a b : Fin 12, (monthName a).data = (monthName b).data → a = b := by
  decide

theorem monthName_data_length : ∀ a : Fin 12, (monthName a).data.length = 3 := by
  decide

theorem digitChar_inj_lt : ∀ a b : Fin 10, Nat.digitChar a.val = Nat.digitChar b.val → a = b := by
  decide

theorem yearString_data_inj (y1 y2 : Fin 10000)
    (h : (yearString y1).data = (yearString y2).data) : y1 = y2 := by
  unfold yearString at h
  simp only [List.cons.injEq, and_true] at h
  obtain ⟨h3, h2, h1, h0⟩ := h
  have b1 := y1.isLt
  have b2 := y2.isLt
  have e3 : y1.val / 1000 = y2.val / 1000 := by
    have := digitChar_inj_lt ⟨y1.val / 1000, by omega⟩ ⟨y2.val / 1000, by omega⟩ h3
    simpa using this
  have e2 : y1.val / 100 % 10 = y2.val / 100 % 10 := by
    have := digitChar_inj_lt ⟨y1.val / 100 % 10, by omega⟩ ⟨y2.val / 100 % 10, by omega⟩ h2
    simpa using this
  have e1 : y1.val / 10 % 10 = y2.val / 10 % 10 := by
    have := digitChar_inj_lt ⟨y1.val / 10 % 10, by omega⟩ ⟨y2.val / 10 % 10, by omega⟩ h1
    simpa using this
  have e0 : y1.val % 10 = y2.val % 10 := by
    have := digitChar_inj_lt ⟨y1.val % 10, by omega⟩ ⟨y2.val % 10, by omega⟩ h0
    simpa using this
  have : y1.val = y2.val := by omega
  exact Fin.ext this

theorem formatMMMyyyy_data (y : Fin 10000) (m : Fin 12) :
    (formatMMMyyyy y m).data = (monthName m).data ++ ' ' :: (yearString y).data := by
  unfold formatMMMyyyy
  rw [String.data_append, String.data_append, List.append_assoc]
  rfl

theorem formatMMMyyyy_inj {y1 y2 : Fin 10000} {m1 m2 : Fin 12}
    (h : formatMMMyyyy y1 m1 = formatMMMyyyy y2 m2) : y1 = y2 ∧ m1 = m2 := by
  have hd := congrArg String.data h
  rw [formatMMMyyyy_data, formatMMMyyyy_data] at hd
  have hlen : (monthName m1).data.length = (monthName m2).data.length := by
    rw [monthName_data_length, monthName_data_length]
  obtain ⟨hm, hy⟩ := List.append_inj hd hlen
  simp only [List.cons.injEq, true_and] at hy
  exact ⟨yearString_data_inj y1 y2 hy, monthName_data_inj m1 m2 hm⟩

/-! ### Data cleaning -/

/-- Modelled from the spec: the implementation of `DataLoader.clean_data` (module
`src.data.loader`) is not among the provided source files — only its tests and
callers are.  Following §4.1 of the specification: left-join `transactions` to
`merchants` on `merchant_id` with transactions as the driving side (every
transaction row survives; with no match the merchant-side columns are null, and
a relational left join emits one row per matching merchant row), substitute the
`merchant_id` string for a null or absent `merchant_name`, substitute
`"Unknown category"` for a null `category`, and pass the remaining columns
through unchanged; no rows are dropped and no deduplication occurs. -/
def clean_data (transactions : List RawTransaction) (merchants : List RawMerchant) :
    List CanonicalTransaction :=
  transactions.flatMap fun t =>
    match merchants.filter (fun m => decide (m.merchant_id = t.merchant_id)) with
    | [] => [{ merchant_id := t.merchant_id
               merchant_name := t.merchant_id
               city_id := none
               state_id := none
               category := t.category.getD "Unknown category"
               purchase_date := t.purchase_date
               purchase_amount := t.purchase_amount
               installments := t.installments }]
    | matched => matched.map fun m =>
        { merchant_id := t.merchant_id
          merchant_name := m.merchant_name.getD t.merchant_id
          city_id := m.city_id
          state_id := m.state_id
          category := t.category.getD "Unknown category"
          purchase_date := t.purchase_date
          purchase_amount := t.purchase_amount
          installments := t.installments }

/-! ### Group-by -/

/-- The distinct grouping keys of a table, in order of first appearance. -/
def groupKeys {α κ : Type} [DecidableEq κ] (key : α → κ) (df : List α) : List κ :=
  (df.map key).dedup

/-- The rows of the group with key `k`. -/
def groupRows {α κ : Type} [DecidableEq κ] (key : α → κ) (df : List α) (k : κ) : List α :=
  df.filter fun a => decide (key a = k)

/-! ### Task 1: top-5 merchants by city and month -/

/-- A row of `monthly_aggregated` in `task1_top_merchants_by_city_month`. -/
structure T1Agg where
  year : Fin 10000
  month : Fin 12
  city_id : Option ℤ
  merchant_name : String
  purchase_total : ℚ
  no_of_sales : ℕ
deriving DecidableEq

def t1Key (t : CanonicalTransaction) : Fin 10000 × Fin 12 × Option ℤ × String :=
  (t.purchase_date.year, t.purchase_date.month, t.city_id, t.merchant_name)

/-- `groupBy(year, month, city_id, merchant_name).agg(sum(purchase_amount), count(*))`. -/
def monthly_aggregated (df : List CanonicalTransaction) : List T1Agg :=
  (groupKeys t1Key df).map fun k =>
    { year := k.1
      month := k.2.1
      city_id := k.2.2.1
      merchant_name := k.2.2.2
      purchase_total := ((groupRows t1Key df k).map CanonicalTransaction.purchase_amount).sum
      no_of_sales := (groupRows t1Key df k).length }

/-- The window's `orderBy(desc(purchase_total), desc(no_of_sales))` as a strict
"sorts strictly earlier" relation on (purchase_total, no_of_sales) pairs. -/
def t1Gt (a b : ℚ × ℕ) : Bool :=
  decide (b.1 < a.1) || (decide (a.1 = b.1) && decide (b.2 < a.2))

def t1OrdKey (r : T1Agg) : ℚ × ℕ := (r.purchase_total, r.no_of_sales)

/-- The rows of `r`'s window partition `(year, month, city_id)`. -/
def t1PartOf (agg : List T1Agg) (r : T1Agg) : List T1Agg :=
  agg.filter fun s => decide ((s.year, s.month, s.city_id) = (r.year, r.month, r.city_id))

structure T1Ranked extends T1Agg where
  rank : ℕ
deriving DecidableEq

/-- `withColumn("rank", dense_rank().over(window)).filter(rank <= 5)`. -/
def ranked_merchants (df : List CanonicalTransaction) : List T1Ranked :=
  let agg := monthly_aggregated df
  (agg.map fun r =>
    { toT1Agg := r
      rank := denseRank t1Gt ((t1PartOf agg r).map t1OrdKey) (t1OrdKey r) }).filter
    fun r => decide (r.rank ≤ 5)

structure T1Out where
  month : String
  city_id : Option ℤ
  merchant_name : String
  purchase_total : ℚ
  no_of_sales : ℕ
deriving DecidableEq

/-- The final `orderBy("year", "month", "city_id", "rank")`.  After the `select`,
the name `month` resolves to the projected formatted string column (the numeric
month column is shadowed by the alias), while `year` and `rank` are resolved
against the child plan as missing references; hence the second sort column
compares the `MMM yyyy` strings by their character sequence. -/
def t1SortCmp : T1Ranked → T1Ranked → Ordering :=
  compareLex (cmpOn cmpLO fun r => r.year.val)
    (compareLex (cmpOn cmpLO fun r => (formatMMMyyyy r.year r.month).data)
      (compareLex (cmpOn (cmpOpt cmpLO) fun r => r.city_id)
        (cmpOn cmpLO fun r => r.rank)))

instance : TransCmp t1SortCmp := by
  unfold t1SortCmp
  infer_instance

/-- Task 1: top 5 merchants by purchase amount per city and month. -/
def task1_top_merchants_by_city_month (df : List CanonicalTransaction) : List T1Out :=
  (sortByCmp t1SortCmp (ranked_merchants df)).map fun r =>
    { month := formatMMMyyyy r.year r.month
      city_id := r.city_id
      merchant_name := r.merchant_name
      purchase_total := round2 r.purchase_total
      no_of_sales := r.no_of_sales }

/-! ### Task 3: top-3 hours by category -/

structure T3Agg where
  category : String
  hour : Fin 24
  total_sales : ℚ
deriving DecidableEq

def t3Key (t : CanonicalTransaction) : String × Fin 24 :=
  (t.category, t.purchase_date.hour)

/-- `groupBy(category, hour(purchase_date)).agg(sum(purchase_amount))`. -/
def hourly_sales (df : List CanonicalTransaction) : List T3Agg :=
  (groupKeys t3Key df).map fun k =>
    { category := k.1
      hour := k.2
      total_sales := ((groupRows t3Key df k).map CanonicalTransaction.purchase_amount).sum }

/-- The window's `orderBy(desc(total_sales))` as a strict precedence on ℚ. -/
def t3Gt (a b : ℚ) : Bool := decide (b < a)

def t3PartOf (agg : List T3Agg) (r : T3Agg) : List T3Agg :=
  agg.filter fun s => decide (s.category = r.category)

structure T3Ranked extends T3Agg where
  rank : ℕ
deriving DecidableEq

/-- `withColumn("rank", dense_rank().over(window)).filter(rank <= 3)`. -/
def ranked_hours (df : List CanonicalTransaction) : List T3Ranked :=
  let agg := hourly_sales df
  (agg.map fun r =>
    { toT3Agg := r
      rank := denseRank t3Gt ((t3PartOf agg r).map T3Agg.total_sales) r.total_sales }).filter
    fun r => decide (r.rank ≤ 3)

/-- Decimal rendering of an hour (the cast of the integer hour column to string). -/
def hourString (h : Fin 24) : String :=
  if h.val < 10 then ⟨[Nat.digitChar h.val]⟩
  else ⟨[Nat.digitChar (h.val / 10), Nat.digitChar (h.val % 10)]⟩

structure T3Out where
  category : String
  hour : String
deriving DecidableEq

def t3SortCmp : T3Ranked → T3Ranked → Ordering :=
  compareLex (cmpOn cmpLO fun r => r.category.data) (cmpOn cmpLO fun r => r.rank)

instance : TransCmp t3SortCmp := by
  unfold t3SortCmp
  infer_instance

/-- Task 3: top 3 hours for largest sales per category. -/
def task3_top_hours_by_category (df : List CanonicalTransaction) : List T3Out :=
  (sortByCmp t3SortCmp (ranked_hours df)).map fun r =>
    { category := r.category, hour := hourString r.hour }

/-! ### Task 4: merchant popularity and dominant category per city -/

structure T4aAgg where
  merchant_name : String
  city_id : Option ℤ
  transaction_count : ℕ
deriving DecidableEq

def t4aKey (t : CanonicalTransaction) : String × Option ℤ :=
  (t.merchant_name, t.city_id)

/-- `groupBy(merchant_name, city_id).agg(count(*))`. -/
def merchant_popularity (df : List CanonicalTransaction) : List T4aAgg :=
  (groupKeys t4aKey df).map fun k =>
    { merchant_name := k.1
      city_id := k.2
      transaction_count := (groupRows t4aKey df k).length }

/-- The window's `orderBy(desc(transaction_count))` as a strict precedence on ℕ. -/
def t4aGt (a b : ℕ) : Bool := decide (b < a)

def t4aPartOf (agg : List T4aAgg) (r : T4aAgg) : List T4aAgg :=
  agg.filter fun s => decide (s.city_id = r.city_id)

structure T4aRanked extends T4aAgg where
  rank : ℕ
deriving DecidableEq

/-- Task 4(a): `withColumn("rank", dense_rank().over(window)).filter(rank <= 10)`;
the source applies no subsequent `orderBy` or projection. -/
def top_merchants_by_city (df : List CanonicalTransaction) : List T4aRanked :=
  let agg := merchant_popularity df
  (agg.map fun r =>
    { toT4aAgg := r
      rank := denseRank t4aGt ((t4aPartOf agg r).map T4aAgg.transaction_count)
        r.transaction_count }).filter
    fun r => decide (r.rank ≤ 10)

structure T4bAgg where
  city_id : Option ℤ
  category : String
  transaction_count : ℕ
  total_sales : ℚ
deriving DecidableEq

def t4bKey (t : CanonicalTransaction) : Option ℤ × String :=
  (t.city_id, t.category)

/-- `groupBy(city_id, category).agg(count(*), sum(purchase_amount))`. -/
def city_category_analysis (df : List CanonicalTransaction) : List T4bAgg :=
  (groupKeys t4bKey df).map fun k =>
    { city_id := k.1
      category := k.2
      transaction_count := (groupRows t4bKey df k).length
      total_sales := ((groupRows t4bKey df k).map CanonicalTransaction.purchase_amount).sum }

/-- Spark's total order on `struct(transaction_count, category)` values:
lexicographic by field order, strings compared by character sequence. -/
def t4bCmp : ℕ × String → ℕ × String → Ordering :=
  compareLex (cmpOn cmpLO fun p => p.1) (cmpOn cmpLO fun p => p.2.data)

instance : TransCmp t4bCmp := by
  unfold t4bCmp
  infer_instance

/-- Binary maximum under a comparator. -/
def cmpMax {α : Type} (cmp : α → α → Ordering) (a b : α) : α :=
  if cmp a b = .lt then b else a

/-- The `F.max` aggregate: maximum of the column's values (none on an empty group). -/
def maxOfList {α : Type} (cmp : α → α → Ordering) : List α → Option α
  | [] => none
  | x :: xs => some (xs.foldl (cmpMax cmp) x)

structure T4bOut where
  city_id : Option ℤ
  dominant_category : String
  category_transactions : ℕ
deriving DecidableEq

/-- Task 4(b): `groupBy(city_id).agg(max(struct(transaction_count, category)))`
followed by the projection of the struct's fields. -/
def city_dominant_categories (df : List CanonicalTransaction) : List T4bOut :=
  let cca := city_category_analysis df
  (groupKeys T4bAgg.city_id cca).filterMap fun c =>
    (maxOfList t4bCmp
        ((cca.filter fun r => decide (r.city_id = c)).map fun r =>
          (r.transaction_count, r.category))).map
      fun m => { city_id := c, dominant_category := m.2, category_transactions := m.1 }

/-- Task 4: the pair of result tables. -/
def task4_popular_merchants_location_analysis (df : List CanonicalTransaction) :
    List T4aRanked × List T4bOut :=
  (top_merchants_by_city df, city_dominant_categories df)

/-! ### Task 5: installment profitability -/

structure InstallmentAgg where
  installments : Option ℤ
  avg_purchase_amount : ℚ
  transaction_count : ℕ
  total_sales : ℚ
deriving DecidableEq

/-- `groupBy(installments).agg(avg, count, sum).orderBy(installments)`. -/
def installment_analysis (df : List CanonicalTransaction) : List InstallmentAgg :=
  sortByCmp (cmpOn (cmpOpt cmpLO) InstallmentAgg.installments)
    ((groupKeys CanonicalTransaction.installments df).map fun k =>
      { installments := k
        avg_purchase_amount :=
          ((groupRows CanonicalTransaction.installments df k).map
              CanonicalTransaction.purchase_amount).sum /
            ((groupRows CanonicalTransaction.installments df k).length : ℚ)
        transaction_count := (groupRows CanonicalTransaction.installments df k).length
        total_sales :=
          ((groupRows CanonicalTransaction.installments df k).map
            CanonicalTransaction.purchase_amount).sum })

/-- The SQL predicate `installments > 1`: a NULL comparison is not satisfied, so
`F.when(installments > 1, _).otherwise(0)` takes the otherwise-branch on NULL. -/
def instGtOne : Option ℤ → Bool
  | some n => decide (1 < n)
  | none => false

structure InstallmentProfit where
  installments : Option ℤ
  avg_purchase_amount : ℚ
  transaction_count : ℕ
  gross_profit : ℚ
  expected_default_loss : ℚ
  net_profit : ℚ
  profit_margin_pct : Option ℚ
deriving DecidableEq

/-- `MerchantAnalysis._analyze_installment_profitability`: the `withColumn`
chain (0.25 margin; 0.229 · 0.5 default loss when installments > 1, else 0;
net; percentage via SQL division) followed by the rounding `select`. -/
def analyze_installment_profitability (rows : List InstallmentAgg) :
    List InstallmentProfit :=
  rows.map fun r =>
    let gross_profit := r.total_sales * (25/100)
    let expected_default_loss :=
      if instGtOne r.installments then r.total_sales * (229/1000) * (1/2) else 0
    let net_profit := gross_profit - expected_default_loss
    let profit_margin_pct := (sparkDiv net_profit r.total_sales).map fun q => q * 100
    { installments := r.installments
      avg_purchase_amount := round2 r.avg_purchase_amount
      transaction_count := r.transaction_count
      gross_profit := round2 gross_profit
      expected_default_loss := round2 expected_default_loss
      net_profit := round2 net_profit
      profit_margin_pct := profit_margin_pct.map round2 }

/-- The `installment_recommendation` entry of Task 5's result dictionary. -/
def task5_installment_recommendation (df : List CanonicalTransaction) :
    List InstallmentProfit :=
  analyze_installment_profitability (installment_analysis df)

/-! ### Properties of the window orders -/

theorem windowOrder_ltGt {α : Type} [LinearOrder α] [DecidableEq α] :
    WindowOrder (fun a b : α => decide (b < a)) := by
  constructor
  · intro a b h h2
    simp only [decide_eq_true_eq] at h h2
    exact lt_asymm h h2
  · intro a b c h1 h2
    simp only [decide_eq_true_eq] at h1 h2 ⊢
    exact h2.trans h1
  · intro a b h
    simp only [decide_eq_true_eq]
    exact (Ne.lt_or_lt h).symm.imp id id

theorem t1Gt_iff {a b : ℚ × ℕ} :
    t1Gt a b = true ↔ b.1 < a.1 ∨ (a.1 = b.1 ∧ b.2 < a.2) := by
  simp [t1Gt, Bool.or_eq_true, Bool.and_eq_true, decide_eq_true_eq]

theorem windowOrder_t1Gt : WindowOrder t1Gt := by
  constructor
  · intro a b h
    rw [t1Gt_iff] at h
    rw [Ne, t1Gt_iff]
    rcases h with h | ⟨he, h⟩
    · rintro (h2 | ⟨he2, _⟩)
      · exact lt_asymm h h2
      · exact absurd h (he2 ▸ lt_irrefl _)
    · rintro (h2 | ⟨_, h2⟩)
      · exact absurd h2 (he ▸ lt_irrefl _)
      · exact Nat.lt_asymm h h2
  · intro a b c h1 h2
    rw [t1Gt_iff] at h1 h2 ⊢
    rcases h1 with h1 | ⟨he1, h1⟩ <;> rcases h2 with h2 | ⟨he2, h2⟩
    · exact Or.inl (h2.trans h1)
    · exact Or.inl (he2 ▸ h1)
    · exact Or.inl (he1 ▸ h2)
    · exact Or.inr ⟨he1.trans he2, h2.trans h1⟩
  · intro a b h
    rw [t1Gt_iff, t1Gt_iff]
    by_cases he : a.1 = b.1
    · have hne : a.2 ≠ b.2 := by
        intro h2
        exact h (Prod.ext he h2)
      rcases Nat.lt_or_ge a.2 b.2 with h2 | h2
      · exact Or.inr (Or.inr ⟨he.symm, h2⟩)
      · exact Or.inl (Or.inr ⟨he, lt_of_le_of_ne h2 (Ne.symm hne)⟩)
    · rcases Ne.lt_or_lt he with h1 | h1
      · exact Or.inr (Or.inl h1)
      · exact Or.inl (Or.inl h1)

/-! ### Properties of `maxOfList` -/

theorem foldl_cmpMax_mem {α : Type} (cmp : α → α → Ordering) :
    ∀ (xs : List α) (x : α), xs.foldl (cmpMax cmp) x ∈ x :: xs := by
  intro xs
  induction xs with
  | nil => intro x; simp
  | cons y ys ih =>
    intro x
    have h := ih (cmpMax cmp x y)
    rcases List.mem_cons.mp h with h | h
    · rw [List.foldl_cons, h]
      unfold cmpMax
      split_ifs
      · simp
      · simp
    · simp [List.foldl_cons]
      right
      right
      exact h

theorem foldl_cmpMax_le {α : Type} (cmp : α → α → Ordering) [TransCmp cmp] :
    ∀ (xs : List α) (x : α) (a : α), a ∈ x :: xs →
      cmp a (xs.foldl (cmpMax cmp) x) ≠ .gt := by
  intro xs
  induction xs with
  | nil =>
    intro x a ha
    rcases List.mem_cons.mp ha with rfl | h
    · rw [List.foldl_nil, @Batteries.OrientedCmp.cmp_refl _ cmp a _]
      simp
    · exact absurd h (List.not_mem_nil a)
  | cons y ys ih =>
    intro x a ha
    rw [List.foldl_cons]
    have hxm : cmp x (cmpMax cmp x y) ≠ .gt := by
      unfold cmpMax
      split_ifs with h
      · simp [h]
      · rw [@Batteries.OrientedCmp.cmp_refl _ cmp x _]
        simp
    have hym : cmp y (cmpMax cmp x y) ≠ .gt := by
      unfold cmpMax
      split_ifs with h
      · rw [@Batteries.OrientedCmp.cmp_refl _ cmp y _]
        simp
      · intro hg
        exact h (Batteries.OrientedCmp.cmp_eq_gt.mp hg)
    have hM := ih (cmpMax cmp x y) (cmpMax cmp x y) (List.mem_cons_self _ _)
    rcases List.mem_cons.mp ha with rfl | ha2
    · exact TransCmp.le_trans hxm hM
    · rcases List.mem_cons.mp ha2 with rfl | ha3
      · exact TransCmp.le_trans hym hM
      · exact ih _ a (List.mem_cons_of_mem _ ha3)

theorem maxOfList_mem {α : Type} (cmp : α → α → Ordering) {l : List α} {m : α}
    (h : maxOfList cmp l = some m) : m ∈ l := by
  cases l with
  | nil => exact absurd h (by simp [maxOfList])
  | cons x xs =>
    unfold maxOfList at h
    have := foldl_cmpMax_mem cmp xs x
    rw [Option.some_inj.mp h] at this
    exact this

theorem maxOfList_is_max {α : Type} (cmp : α → α → Ordering) [TransCmp cmp] {l : List α}
    {m : α} (h : maxOfList cmp l = some m) : ∀ a ∈ l, cmp a m ≠ .gt := by
  cases l with
  | nil => exact absurd h (by simp [maxOfList])
  | cons x xs =>
    unfold maxOfList at h
    intro a ha
    have := foldl_cmpMax_le cmp xs x a ha
    rw [Option.some_inj.mp h] at this
    exact this

/-! ### Round-trip helpers for concrete two-decimal values -/

theorem round2_fixed (q : ℚ) (z : ℤ) (h : q * 100 = (z : ℚ)) : round2 q = q := by
  rw [round2_eq_of_mul_hundred q z h]
  field_simp
  linarith

/-! ### Claims C1, C9, C10: the installment profitability model -/

/-- C1: in Task 5's installment recommendation every output row is obtained from
its installments group by gross_profit = total_sales·0.25, expected_default_loss
= total_sales·0.229·0.5 when installments > 1 and 0 otherwise, net_profit =
gross_profit − expected_default_loss, profit_margin_pct = (net_profit /
total_sales)·100, each rounded to two decimals; and a group with
total_sales = 1000 and installments = 3 yields gross_profit = 250.00,
expected_default_loss = 114.50, net_profit = 135.50, profit_margin_pct = 13.55. -/
theorem c1_installment_profitability_formulas :
    (∀ (rows : List InstallmentAgg) (o : InstallmentProfit),
        o ∈ analyze_installment_profitability rows →
        ∃ g ∈ rows,
          o.installments = g.installments ∧
          o.gross_profit = round2 (g.total_sales * (25/100)) ∧
          o.expected_default_loss =
            round2 (if instGtOne g.installments then g.total_sales * (229/1000) * (1/2) else 0) ∧
          o.net_profit =
            round2 (g.total_sales * (25/100) -
              if instGtOne g.installments then g.total_sales * (229/1000) * (1/2) else 0) ∧
          o.profit_margin_pct =
            (sparkDiv
                (g.total_sales * (25/100) -
                  if instGtOne g.installments then g.total_sales * (229/1000) * (1/2) else 0)
                g.total_sales).map fun q => round2 (q * 100)) ∧
    analyze_installment_profitability [⟨some 3, 500, 2, 1000⟩] =
      [⟨some 3, 500, 2, 250, 1145/10, 1355/10, some (1355/100)⟩] := by
  constructor
  · intro rows o ho
    unfold analyze_installment_profitability at ho
    rw [List.mem_map] at ho
    obtain ⟨g, hg, rfl⟩ := ho
    refine ⟨g, hg, rfl, rfl, rfl, rfl, ?_⟩
    dsimp only
    rw [Option.map_map]
    rfl
  · unfold analyze_installment_profitability
    simp only [List.map_cons, List.map_nil]
    have hgt : instGtOne (some 3) = true := rfl
    simp only [hgt, if_true]
    have e1 : ((1000:ℚ) * (25/100)) = 250 := by norm_num
    have e2 : ((1000:ℚ) * (229/1000) * (1/2)) = 1145/10 := by norm_num
    have e3 : ((250:ℚ) - 1145/10) = 1355/10 := by norm_num
    rw [e1, e2, e3]
    have e4 : sparkDiv (1355/10) 1000 = some ((1355:ℚ)/10000) := by
      unfold sparkDiv
      rw [if_neg (by norm_num)]
      norm_num
    rw [e4]
    simp only [Option.map_some']
    have e5 : ((1355:ℚ)/10000 * 100) = 1355/100 := by norm_num
    rw [e5]
    rw [round2_fixed 500 50000 (by norm_num), round2_fixed 250 25000 (by norm_num),
      round2_fixed (1145/10) 11450 (by norm_num), round2_fixed (1355/10) 13550 (by norm_num),
      round2_fixed (1355/100) 1355 (by norm_num)]

/-- C1 witness: the universally quantified part of C1 applied to the concrete
one-group table of the scenario. -/
theorem c1_installment_profitability_formulas_witness :
    (⟨some 3, 500, 2, 250, 1145/10, 1355/10, some (1355/100)⟩ : InstallmentProfit) ∈
      analyze_installment_profitability [⟨some 3, 500, 2, 1000⟩] ∧
    ∃ g ∈ ([⟨some 3, 500, 2, 1000⟩] : List InstallmentAgg),
      (⟨some 3, 500, 2, 250, 1145/10, 1355/10, some (1355/100)⟩ :
          InstallmentProfit).installments = g.installments := by
  have hmem : (⟨some 3, 500, 2, 250, 1145/10, 1355/10, some (1355/100)⟩ : InstallmentProfit) ∈
      analyze_installment_profitability [⟨some 3, 500, 2, 1000⟩] := by
    rw [c1_installment_profitability_formulas.2]
    simp
  obtain ⟨g, hg, h1, _⟩ := c1_installment_profitability_formulas.1 _ _ hmem
  exact ⟨hmem, g, hg, h1⟩

/-- C9: whenever a group's total_sales is nonzero, profit_margin_pct is the
constant 25.00 for installments ≤ 1 or NULL and the constant 13.55 for
installments > 1. -/
theorem c9_profit_margin_pct_constant (rows : List InstallmentAgg) (g : InstallmentAgg)
    (hg : g ∈ rows) (hts : g.total_sales ≠ 0) :
    ∃ o ∈ analyze_installment_profitability rows,
      o.installments = g.installments ∧
      ((g.installments = none ∨ ∃ n, g.installments = some n ∧ n ≤ 1) →
        o.profit_margin_pct = some 25) ∧
      ((∃ n, g.installments = some n ∧ 1 < n) →
        o.profit_margin_pct = some (1355/100)) := by
  unfold analyze_installment_profitability
  refine ⟨_, List.mem_map_of_mem _ hg, rfl, fun hc => ?_, fun hc => ?_⟩
  · have hfalse : instGtOne g.installments = false := by
      rcases hc with h | ⟨n, h, hn⟩
      · rw [h]; rfl
      · rw [h]
        unfold instGtOne
        simp only [decide_eq_false_iff_not, not_lt]
        exact hn
    simp only [hfalse, Bool.false_eq_true, if_false, sub_zero]
    unfold sparkDiv
    rw [if_neg hts]
    simp only [Option.map_some']
    rw [mul_comm g.total_sales (25/100 : ℚ), mul_div_assoc, div_self hts, mul_one]
    have : ((25:ℚ)/100 * 100) = 25 := by norm_num
    rw [this, round2_fixed 25 2500 (by norm_num)]
  · obtain ⟨n, h, hn⟩ := hc
    have htrue : instGtOne g.installments = true := by
      rw [h]
      unfold instGtOne
      simp only [decide_eq_true_eq]
      exact hn
    simp only [htrue, if_true]
    have hnet : g.total_sales * (25/100) - g.total_sales * (229/1000) * (1/2) =
        g.total_sales * (271/2000) := by ring
    rw [hnet]
    unfold sparkDiv
    rw [if_neg hts]
    simp only [Option.map_some']
    rw [mul_comm g.total_sales ((271:ℚ)/2000), mul_div_assoc, div_self hts, mul_one]
    have : ((271:ℚ)/2000 * 100) = 1355/100 := by norm_num
    rw [this, round2_fixed (1355/100) 1355 (by norm_num)]

/-- C9 witness: the constant-margin theorem applied to the one-group table with
total_sales = 1000 and installments = 3. -/
theorem c9_profit_margin_pct_constant_witness :
    (⟨some 3, 500, 2, 1000⟩ : InstallmentAgg) ∈
      ([⟨some 3, 500, 2, 1000⟩] : List InstallmentAgg) ∧
    (⟨some 3, 500, 2, (1000:ℚ)⟩ : InstallmentAgg).total_sales ≠ 0 ∧
    ∃ o ∈ analyze_installment_profitability [⟨some 3, 500, 2, 1000⟩],
      o.installments = (⟨some 3, 500, 2, 1000⟩ : InstallmentAgg).installments ∧
      (((⟨some 3, 500, 2, 1000⟩ : InstallmentAgg).installments = none ∨
          ∃ n, (⟨some 3, 500, 2, 1000⟩ : InstallmentAgg).installments = some n ∧ n ≤ 1) →
        o.profit_margin_pct = some 25) ∧
      ((∃ n, (⟨some 3, 500, 2, 1000⟩ : InstallmentAgg).installments = some n ∧ 1 < n) →
        o.profit_margin_pct = some (1355/100)) :=
  ⟨by simp, by simp, c9_profit_margin_pct_constant _ _ (by simp) (by simp)⟩

/-- C10: a group whose total_sales is 0 still produces an output row, with zero
gross profit, zero expected default loss, zero net profit, and a NULL
profit_margin_pct from the unguarded division by total_sales. -/
theorem c10_zero_total_sales_group (rows : List InstallmentAgg) (g : InstallmentAgg)
    (hg : g ∈ rows) (h0 : g.total_sales = 0) :
    ∃ o ∈ analyze_installment_profitability rows,
      o.installments = g.installments ∧ o.gross_profit = 0 ∧
      o.expected_default_loss = 0 ∧ o.net_profit = 0 ∧ o.profit_margin_pct = none := by
  unfold analyze_installment_profitability
  refine ⟨_, List.mem_map_of_mem _ hg, rfl, ?_, ?_, ?_, ?_⟩
  · show round2 (g.total_sales * (25/100)) = 0
    rw [h0, zero_mul, round2_zero]
  · show round2 (if instGtOne g.installments then g.total_sales * (229/1000) * (1/2) else 0) = 0
    rw [h0]
    split_ifs <;> simp [round2_zero]
  · show round2 (g.total_sales * (25/100) -
      if instGtOne g.installments then g.total_sales * (229/1000) * (1/2) else 0) = 0
    rw [h0]
    split_ifs <;> simp [round2_zero]
  · show ((sparkDiv (g.total_sales * (25/100) -
        if instGtOne g.installments then g.total_sales * (229/1000) * (1/2) else 0)
        g.total_sales).map fun q => q * 100).map round2 = none
    rw [h0]
    unfold sparkDiv
    simp

/-- C10 witness: the zero-sales theorem applied to a one-group table whose only
group sums to zero sales. -/
theorem c10_zero_total_sales_group_witness :
    (⟨some 2, 0, 2, 0⟩ : InstallmentAgg) ∈ ([⟨some 2, 0, 2, 0⟩] : List InstallmentAgg) ∧
    (⟨some 2, 0, 2, (0:ℚ)⟩ : InstallmentAgg).total_sales = 0 ∧
    ∃ o ∈ analyze_installment_profitability [⟨some 2, 0, 2, 0⟩],
      o.installments = (⟨some 2, 0, 2, 0⟩ : InstallmentAgg).installments ∧
      o.gross_profit = 0 ∧ o.expected_default_loss = 0 ∧ o.net_profit = 0 ∧
      o.profit_margin_pct = none :=
  ⟨by simp, by simp, c10_zero_total_sales_group _ _ (by simp) (by simp)⟩

/-! ### Claims C2, C3: the cleaning step -/

/-- A fixed timestamp for concrete example tables. -/
def exTs0 : Timestamp := ⟨⟨2023, by decide⟩, ⟨0, by decide⟩, 15, ⟨10, by decide⟩, 30⟩

/-- C2 counterexample: with the same merchant_id appearing twice in the
merchants table, the left join emits two rows for a single transaction, so the
output does not have exactly one row per transaction. -/
theorem c2_left_join_counterexample :
    (clean_data [⟨"M1", 10, exTs0, some "Food", some 1⟩]
        [⟨"M1", some "A", some 1, some 10⟩, ⟨"M1", some "B", some 1, some 10⟩]).length ≠
      ([⟨"M1", 10, exTs0, some "Food", some 1⟩] : List RawTransaction).length := by
  decide

/-- C2 (amended): the cleaned output has one row per transaction with at most one
matching merchants row — in general each transaction contributes
`max 1 (number of matching merchants rows)` rows, so unmatched transactions are
preserved and no transaction is dropped, but a transaction whose merchant_id
repeats in the merchants table is emitted once per match. -/
theorem c2_left_join_row_count (ts : List RawTransaction) (ms : List RawMerchant) :
    (clean_data ts ms).length =
      (ts.map fun t => max 1 (ms.countP fun m => decide (m.merchant_id = t.merchant_id))).sum := by
  induction ts with
  | nil => rfl
  | cons t ts ih =>
    unfold clean_data at ih ⊢
    rw [List.flatMap_cons, List.length_append, List.map_cons, List.sum_cons, ih]
    congr 1
    rw [List.countP_eq_length_filter]
    cases hfil : ms.filter (fun m => decide (m.merchant_id = t.merchant_id)) with
    | nil => simp
    | cons m0 rest =>
      simp only [List.length_map, List.length_cons]
      omega

/-- C3: every cleaned row carries a never-null merchant_name and category:
category is the source category when present and the literal "Unknown category"
when the source category is null; merchant_name is the matched merchant's name
when present, and the merchant_id string when the matched name is null or no
merchant matched. -/
theorem c3_never_null_substitutions (ts : List RawTransaction) (ms : List RawMerchant)
    (r : CanonicalTransaction) (hr : r ∈ clean_data ts ms) :
    ∃ t ∈ ts,
      r.merchant_id = t.merchant_id ∧
      (∀ c, t.category = some c → r.category = c) ∧
      (t.category = none → r.category = "Unknown category") ∧
      ((∃ m ∈ ms, m.merchant_id = t.merchant_id ∧
          (∀ n, m.merchant_name = some n → r.merchant_name = n) ∧
          (m.merchant_name = none → r.merchant_name = t.merchant_id)) ∨
        ((∀ m ∈ ms, m.merchant_id ≠ t.merchant_id) ∧ r.merchant_name = t.merchant_id)) := by
  unfold clean_data at hr
  rw [List.mem_flatMap] at hr
  obtain ⟨t, ht, hmem⟩ := hr
  refine ⟨t, ht, ?_⟩
  cases hfil : ms.filter (fun m => decide (m.merchant_id = t.merchant_id)) with
  | nil =>
    rw [hfil] at hmem
    simp only [List.mem_singleton] at hmem
    subst hmem
    refine ⟨rfl, fun c hc => ?_, fun hc => ?_, Or.inr ⟨fun m hm heq => ?_, rfl⟩⟩
    · show t.category.getD "Unknown category" = c
      rw [hc]
      rfl
    · show t.category.getD "Unknown category" = "Unknown category"
      rw [hc]
      rfl
    · have := List.filter_eq_nil_iff.mp hfil m hm
      rw [decide_eq_true_eq] at this
      exact this heq
  | cons m0 rest =>
    rw [hfil] at hmem
    rw [List.mem_map] at hmem
    obtain ⟨m, hm_mem, rfl⟩ := hmem
    have hm_filter : m ∈ ms.filter (fun m => decide (m.merchant_id = t.merchant_id)) := by
      rw [hfil]
      exact hm_mem
    have hmf := List.mem_filter.mp hm_filter
    have hid : m.merchant_id = t.merchant_id := by
      have := hmf.2
      rwa [decide_eq_true_eq] at this
    refine ⟨rfl, fun c hc => ?_, fun hc => ?_, Or.inl ⟨m, hmf.1, hid, fun n hn => ?_, fun hn => ?_⟩⟩
    · show t.category.getD "Unknown category" = c
      rw [hc]
      rfl
    · show t.category.getD "Unknown category" = "Unknown category"
      rw [hc]
      rfl
    · show m.merchant_name.getD t.merchant_id = n
      rw [hn]
      rfl
    · show m.merchant_name.getD t.merchant_id = t.merchant_id
      rw [hn]
      rfl

/-- C3 witness: the substitution theorem applied to a one-transaction table with
a null category whose merchant row has a null merchant_name. -/
theorem c3_never_null_substitutions_witness :
    (⟨"M004", "M004", some 3, some 30, "Unknown category", exTs0, 3000, some 1⟩ :
        CanonicalTransaction) ∈
      clean_data [⟨"M004", 3000, exTs0, none, some 1⟩] [⟨"M004", none, some 3, some 30⟩] ∧
    ∃ t ∈ ([⟨"M004", 3000, exTs0, none, some 1⟩] : List RawTransaction),
      (⟨"M004", "M004", some 3, some 30, "Unknown category", exTs0, 3000, some 1⟩ :
          CanonicalTransaction).merchant_id = t.merchant_id ∧
      (∀ c, t.category = some c →
        (⟨"M004", "M004", some 3, some 30, "Unknown category", exTs0, 3000, some 1⟩ :
          CanonicalTransaction).category = c) ∧
      (t.category = none →
        (⟨"M004", "M004", some 3, some 30, "Unknown category", exTs0, 3000, some 1⟩ :
          CanonicalTransaction).category = "Unknown category") ∧
      ((∃ m ∈ ([⟨"M004", none, some 3, some 30⟩] : List RawMerchant),
          m.merchant_id = t.merchant_id ∧
          (∀ n, m.merchant_name = some n →
            (⟨"M004", "M004", some 3, some 30, "Unknown category", exTs0, 3000, some 1⟩ :
              CanonicalTransaction).merchant_name = n) ∧
          (m.merchant_name = none →
            (⟨"M004", "M004", some 3, some 30, "Unknown category", exTs0, 3000, some 1⟩ :
              CanonicalTransaction).merchant_name = t.merchant_id)) ∨
        ((∀ m ∈ ([⟨"M004", none, some 3, some 30⟩] : List RawMerchant),
            m.merchant_id ≠ t.merchant_id) ∧
          (⟨"M004", "M004", some 3, some 30, "Unknown category", exTs0, 3000, some 1⟩ :
            CanonicalTransaction).merchant_name = t.merchant_id)) :=
  ⟨by decide, c3_never_null_substitutions _ _ _ (by decide)⟩

/-! ### Claim C6: dominant category per city -/

/-- C6: for every city in the Task 4(b) output, the reported pair is a real
(category, transaction_count) of that city, every category of the city has a
transaction count at most the reported one, and among categories tying on the
maximal transaction count the lexicographically largest category name is the
one reported. -/
theorem c6_dominant_category_max (df : List CanonicalTransaction) (o : T4bOut)
    (ho : o ∈ city_dominant_categories df) :
    (∃ r ∈ city_category_analysis df, r.city_id = o.city_id ∧
        r.category = o.dominant_category ∧ r.transaction_count = o.category_transactions) ∧
    (∀ r ∈ city_category_analysis df, r.city_id = o.city_id →
        r.transaction_count ≤ o.category_transactions ∧
          (r.transaction_count = o.category_transactions →
            r.category.data ≤ o.dominant_category.data)) := by
  unfold city_dominant_categories at ho
  rw [List.mem_filterMap] at ho
  obtain ⟨c, hc, hmap⟩ := ho
  rw [Option.map_eq_some'] at hmap
  obtain ⟨m, hmax, rfl⟩ := hmap
  constructor
  · have hmem := maxOfList_mem t4bCmp hmax
    rw [List.mem_map] at hmem
    obtain ⟨r0, hr0, hpair⟩ := hmem
    have hr0m := List.mem_filter.mp hr0
    refine ⟨r0, hr0m.1, ?_, ?_, ?_⟩
    · have := hr0m.2
      rwa [decide_eq_true_eq] at this
    · exact congrArg Prod.snd hpair
    · exact congrArg Prod.fst hpair
  · intro r hr hcity
    have hpair_mem : (r.transaction_count, r.category) ∈
        ((city_category_analysis df).filter fun s => decide (s.city_id = c)).map fun s =>
          (s.transaction_count, s.category) := by
      rw [List.mem_map]
      exact ⟨r, List.mem_filter.mpr ⟨hr, by rw [decide_eq_true_eq]; exact hcity⟩, rfl⟩
    have hle := maxOfList_is_max t4bCmp hmax _ hpair_mem
    unfold t4bCmp compareLex cmpOn at hle
    rw [Ne, Ordering.then_eq_gt, not_or, not_and] at hle
    refine ⟨cmpLO_ne_gt.mp hle.1, fun heq => ?_⟩
    have h2 := hle.2 (cmpLO_eq_eq.mpr heq)
    exact cmpLO_ne_gt.mp h2

/-- C6 witness: the dominance theorem applied to a two-category city whose
categories tie on transaction count; the city row reports the lexicographically
larger name "B". -/
theorem c6_dominant_category_max_witness :
    (⟨some 1, "B", 1⟩ : T4bOut) ∈ city_dominant_categories
      [⟨"M1", "Ashop", some 1, some 10, "A", exTs0, 10, some 1⟩,
       ⟨"M2", "Bshop", some 1, some 10, "B", exTs0, 10, some 1⟩] ∧
    ((∃ r ∈ city_category_analysis
          [⟨"M1", "Ashop", some 1, some 10, "A", exTs0, 10, some 1⟩,
           ⟨"M2", "Bshop", some 1, some 10, "B", exTs0, 10, some 1⟩],
        r.city_id = (⟨some 1, "B", 1⟩ : T4bOut).city_id ∧
        r.category = (⟨some 1, "B", 1⟩ : T4bOut).dominant_category ∧
        r.transaction_count = (⟨some 1, "B", 1⟩ : T4bOut).category_transactions) ∧
      (∀ r ∈ city_category_analysis
          [⟨"M1", "Ashop", some 1, some 10, "A", exTs0, 10, some 1⟩,
           ⟨"M2", "Bshop", some 1, some 10, "B", exTs0, 10, some 1⟩],
          r.city_id = (⟨some 1, "B", 1⟩ : T4bOut).city_id →
          r.transaction_count ≤ (⟨some 1, "B", 1⟩ : T4bOut).category_transactions ∧
            (r.transaction_count = (⟨some 1, "B", 1⟩ : T4bOut).category_transactions →
              r.category.data ≤ (⟨some 1, "B", 1⟩ : T4bOut).dominant_category.data))) :=
  ⟨by decide, c6_dominant_category_max _ _ (by decide)⟩

/-! ### Claim C8: Task 4(a) rank invariants -/

theorem mem_top_merchants_iff {df : List CanonicalTransaction} {r : T4aRanked} :
    r ∈ top_merchants_by_city df ↔
      r.toT4aAgg ∈ merchant_popularity df ∧
      r.rank = denseRank t4aGt
        ((t4aPartOf (merchant_popularity df) r.toT4aAgg).map T4aAgg.transaction_count)
        r.transaction_count ∧
      r.rank ≤ 10 := by
  unfold top_merchants_by_city
  rw [List.mem_filter, List.mem_map]
  constructor
  · rintro ⟨⟨s, hs, rfl⟩, hrank⟩
    rw [decide_eq_true_eq] at hrank
    exact ⟨hs, rfl, hrank⟩
  · rintro ⟨hmem, hrank, hle⟩
    refine ⟨⟨r.toT4aAgg, hmem, ?_⟩, by rw [decide_eq_true_eq]; exact hle⟩
    cases r with
    | mk agg rk =>
      simp only at hrank
      rw [hrank]

theorem t4aPartOf_congr {agg : List T4aAgg} {a b : T4aAgg} (h : a.city_id = b.city_id) :
    t4aPartOf agg a = t4aPartOf agg b := by
  unfold t4aPartOf
  simp only [h]

theorem windowOrder_t4aGt : WindowOrder t4aGt := windowOrder_ltGt

/-- C8 (amended): within every city of the Task 4(a) output the ranks lie in
[1, 10], the ranks are dense — every value from 1 up to any attained rank is
attained — and the rows take at most 10 distinct transaction_count values
(ties share a dense rank, so more than 10 rows can appear, but only through
equal transaction counts). -/
theorem c8_task4a_rank_invariants (df : List CanonicalTransaction) (c : Option ℤ) :
    (∀ r ∈ (top_merchants_by_city df).filter (fun r => decide (r.city_id = c)),
        1 ≤ r.rank ∧ r.rank ≤ 10) ∧
    (∀ r ∈ (top_merchants_by_city df).filter (fun r => decide (r.city_id = c)),
        ∀ v, 1 ≤ v → v ≤ r.rank →
          ∃ s ∈ (top_merchants_by_city df).filter (fun s => decide (s.city_id = c)),
            s.rank = v) ∧
    ((((top_merchants_by_city df).filter (fun r => decide (r.city_id = c))).map
        (fun r => r.transaction_count)).toFinset.card ≤ 10) := by
  refine ⟨?_, ?_, ?_⟩
  · intro r hr
    have hr2 := (List.mem_filter.mp hr).1
    rw [mem_top_merchants_iff] at hr2
    exact ⟨hr2.2.1 ▸ denseRank_pos _ _ _, hr2.2.2⟩
  · intro r hr v hv1 hv2
    obtain ⟨hrt, hrc⟩ := List.mem_filter.mp hr
    rw [decide_eq_true_eq] at hrc
    rw [mem_top_merchants_iff] at hrt
    obtain ⟨hragg, hrrank, hrle⟩ := hrt
    set keys := (t4aPartOf (merchant_popularity df) r.toT4aAgg).map T4aAgg.transaction_count
      with hkeys
    have hself : r.transaction_count ∈ keys := by
      rw [hkeys]
      exact List.mem_map_of_mem _ (List.mem_filter.mpr ⟨hragg, by rw [decide_eq_true_eq]⟩)
    have hvcard : v ≤ keys.toFinset.card := by
      have := denseRank_le_card windowOrder_t4aGt hself
      omega
    obtain ⟨k, hk, hkrank⟩ := denseRank_surj windowOrder_t4aGt keys hv1 hvcard
    rw [hkeys, List.mem_map] at hk
    obtain ⟨s0, hs0, rfl⟩ := hk
    have hs0f := List.mem_filter.mp hs0
    have hs0city : s0.city_id = r.toT4aAgg.city_id := by
      have := hs0f.2
      rwa [decide_eq_true_eq] at this
    have hpart : t4aPartOf (merchant_popularity df) s0 =
        t4aPartOf (merchant_popularity df) r.toT4aAgg := t4aPartOf_congr hs0city
    refine ⟨⟨s0, v⟩, List.mem_filter.mpr ⟨?_, ?_⟩, rfl⟩
    · rw [mem_top_merchants_iff]
      refine ⟨hs0f.1, ?_, by show v ≤ 10; omega⟩
      show v = denseRank t4aGt ((t4aPartOf (merchant_popularity df) s0).map
        T4aAgg.transaction_count) s0.transaction_count
      rw [hpart, ← hkeys, hkrank]
    · show decide ((⟨s0, v⟩ : T4aRanked).city_id = c) = true
      rw [decide_eq_true_eq]
      show s0.city_id = c
      rw [hs0city, hrc]
  · rcases hF : (top_merchants_by_city df).filter (fun r => decide (r.city_id = c)) with _ | ⟨r0, rest⟩
    · rw [hF]
      simp
    · have hr0 : r0 ∈ (top_merchants_by_city df).filter (fun r => decide (r.city_id = c)) := by
        rw [hF]
        exact List.mem_cons_self _ _
      obtain ⟨hr0t, hr0c⟩ := List.mem_filter.mp hr0
      rw [decide_eq_true_eq] at hr0c
      rw [mem_top_merchants_iff] at hr0t
      set keys := (t4aPartOf (merchant_popularity df) r0.toT4aAgg).map T4aAgg.transaction_count
        with hkeys
      have hsub : ((((top_merchants_by_city df).filter
          (fun r => decide (r.city_id = c))).map (fun r => r.transaction_count)).toFinset : Finset ℕ) ⊆
          keys.toFinset.filter (fun k => denseRank t4aGt keys k ≤ 10) := by
        intro x hx
        rw [List.mem_toFinset, List.mem_map] at hx
        obtain ⟨s, hs, rfl⟩ := hx
        obtain ⟨hst, hsc⟩ := List.mem_filter.mp hs
        rw [decide_eq_true_eq] at hsc
        rw [mem_top_merchants_iff] at hst
        obtain ⟨hsagg, hsrank, hsle⟩ := hst
        have hscity : s.toT4aAgg.city_id = r0.toT4aAgg.city_id := by
          show s.city_id = r0.city_id
          rw [hsc, hr0c]
        have hpart : t4aPartOf (merchant_popularity df) s.toT4aAgg =
            t4aPartOf (merchant_popularity df) r0.toT4aAgg := t4aPartOf_congr hscity
        rw [Finset.mem_filter]
        constructor
        · rw [List.mem_toFinset, hkeys]
          refine List.mem_map_of_mem _ ?_
          rw [← hpart]
          exact List.mem_filter.mpr ⟨hsagg, by rw [decide_eq_true_eq]⟩
        · have : denseRank t4aGt keys s.transaction_count = s.rank := by
            rw [hsrank, hkeys, hpart]
          omega
      have := Finset.card_le_card hsub
      have hkept := denseRank_kept_card_le windowOrder_t4aGt keys 10
      omega

/-- C8 witness: the rank-invariant theorem applied to a concrete table. -/
theorem c8_task4a_rank_invariants_witness :
    (∀ r ∈ (top_merchants_by_city
          [⟨"M1", "A", some 1, some 10, "Food", exTs0, 10, some 1⟩,
           ⟨"M2", "B", some 1, some 10, "Food", exTs0, 10, some 1⟩]).filter
        (fun r => decide (r.city_id = some 1)),
        1 ≤ r.rank ∧ r.rank ≤ 10) ∧
    (∀ r ∈ (top_merchants_by_city
          [⟨"M1", "A", some 1, some 10, "Food", exTs0, 10, some 1⟩,
           ⟨"M2", "B", some 1, some 10, "Food", exTs0, 10, some 1⟩]).filter
        (fun r => decide (r.city_id = some 1)),
        ∀ v, 1 ≤ v → v ≤ r.rank →
          ∃ s ∈ (top_merchants_by_city
              [⟨"M1", "A", some 1, some 10, "Food", exTs0, 10, some 1⟩,
               ⟨"M2", "B", some 1, some 10, "Food", exTs0, 10, some 1⟩]).filter
            (fun s => decide (s.city_id = some 1)),
            s.rank = v) ∧
    ((((top_merchants_by_city
          [⟨"M1", "A", some 1, some 10, "Food", exTs0, 10, some 1⟩,
           ⟨"M2", "B", some 1, some 10, "Food", exTs0, 10, some 1⟩]).filter
        (fun r => decide (r.city_id = some 1))).map
        (fun r => r.transaction_count)).toFinset.card ≤ 10) :=
  c8_task4a_rank_invariants
    [⟨"M1", "A", some 1, some 10, "Food", exTs0, 10, some 1⟩,
     ⟨"M2", "B", some 1, some 10, "Food", exTs0, 10, some 1⟩] (some 1)

/-- C8 counterexample: eleven merchants of one city with one transaction each
all receive dense rank 1, so the city keeps eleven rows — more than 10. -/
theorem c8_task4a_counterexample :
    10 < ((top_merchants_by_city
        [⟨"M01", "A", some 1, some 10, "Food", exTs0, 10, some 1⟩,
         ⟨"M02", "B", some 1, some 10, "Food", exTs0, 10, some 1⟩,
         ⟨"M03", "C", some 1, some 10, "Food", exTs0, 10, some 1⟩,
         ⟨"M04", "D", some 1, some 10, "Food", exTs0, 10, some 1⟩,
         ⟨"M05", "E", some 1, some 10, "Food", exTs0, 10, some 1⟩,
         ⟨"M06", "F", some 1, some 10, "Food", exTs0, 10, some 1⟩,
         ⟨"M07", "G", some 1, some 10, "Food", exTs0, 10, some 1⟩,
         ⟨"M08", "H", some 1, some 10, "Food", exTs0, 10, some 1⟩,
         ⟨"M09", "I", some 1, some 10, "Food", exTs0, 10, some 1⟩,
         ⟨"M10", "J", some 1, some 10, "Food", exTs0, 10, some 1⟩,
         ⟨"M11", "K", some 1, some 10, "Food", exTs0, 10, some 1⟩]).filter
      (fun r => decide (r.city_id = some 1))).length := by
  decide

/-! ### Claim C7: Task 3 invariants -/

theorem mem_ranked_hours_iff {df : List CanonicalTransaction} {r : T3Ranked} :
    r ∈ ranked_hours df ↔
      r.toT3Agg ∈ hourly_sales df ∧
      r.rank = denseRank t3Gt
        ((t3PartOf (hourly_sales df) r.toT3Agg).map T3Agg.total_sales) r.total_sales ∧
      r.rank ≤ 3 := by
  unfold ranked_hours
  rw [List.mem_filter, List.mem_map]
  constructor
  · rintro ⟨⟨s, hs, rfl⟩, hrank⟩
    rw [decide_eq_true_eq] at hrank
    exact ⟨hs, rfl, hrank⟩
  · rintro ⟨hmem, hrank, hle⟩
    refine ⟨⟨r.toT3Agg, hmem, ?_⟩, by rw [decide_eq_true_eq]; exact hle⟩
    cases r with
    | mk agg rk =>
      simp only at hrank
      rw [hrank]

theorem t3PartOf_congr {agg : List T3Agg} {a b : T3Agg} (h : a.category = b.category) :
    t3PartOf agg a = t3PartOf agg b := by
  unfold t3PartOf
  simp only [h]

theorem windowOrder_t3Gt : WindowOrder t3Gt := windowOrder_ltGt

/-- C7 (amended): every hour value of the Task 3 output is the decimal rendering
of an hour in [0, 23]; within each category the kept rows take at most 3
distinct total_sales values (dense ranks 1–3; ties on total_sales may make a
category exceed 3 rows), and the output has exactly one row per kept
(category, hour) pair. -/
theorem c7_task3_hour_invariants (df : List CanonicalTransaction) (c : String) :
    (∀ r ∈ task3_top_hours_by_category df, ∃ h : Fin 24, r.hour = hourString h) ∧
    ((((ranked_hours df).filter (fun r => decide (r.category = c))).map
        (fun r => r.total_sales)).toFinset.card ≤ 3) ∧
    ((task3_top_hours_by_category df).filter (fun r => decide (r.category = c))).length =
      ((ranked_hours df).filter (fun r => decide (r.category = c))).length := by
  refine ⟨?_, ?_, ?_⟩
  · intro r hr
    unfold task3_top_hours_by_category at hr
    rw [List.mem_map] at hr
    obtain ⟨s, _, rfl⟩ := hr
    exact ⟨s.hour, rfl⟩
  · rcases hF : (ranked_hours df).filter (fun r => decide (r.category = c)) with _ | ⟨r0, rest⟩
    · rw [hF]
      simp
    · have hr0 : r0 ∈ (ranked_hours df).filter (fun r => decide (r.category = c)) := by
        rw [hF]
        exact List.mem_cons_self _ _
      obtain ⟨hr0t, hr0c⟩ := List.mem_filter.mp hr0
      rw [decide_eq_true_eq] at hr0c
      set keys := (t3PartOf (hourly_sales df) r0.toT3Agg).map T3Agg.total_sales with hkeys
      have hsub : ((((ranked_hours df).filter (fun r => decide (r.category = c))).map
          (fun r => r.total_sales)).toFinset : Finset ℚ) ⊆
          keys.toFinset.filter (fun k => denseRank t3Gt keys k ≤ 3) := by
        intro x hx
        rw [List.mem_toFinset, List.mem_map] at hx
        obtain ⟨s, hs, rfl⟩ := hx
        obtain ⟨hst, hsc⟩ := List.mem_filter.mp hs
        rw [decide_eq_true_eq] at hsc
        rw [mem_ranked_hours_iff] at hst
        obtain ⟨hsagg, hsrank, hsle⟩ := hst
        have hscat : s.toT3Agg.category = r0.toT3Agg.category := by
          show s.category = r0.category
          rw [hsc, hr0c]
        have hpart : t3PartOf (hourly_sales df) s.toT3Agg =
            t3PartOf (hourly_sales df) r0.toT3Agg := t3PartOf_congr hscat
        rw [Finset.mem_filter]
        constructor
        · rw [List.mem_toFinset, hkeys]
          refine List.mem_map_of_mem _ ?_
          rw [← hpart]
          exact List.mem_filter.mpr ⟨hsagg, by rw [decide_eq_true_eq]⟩
        · have : denseRank t3Gt keys s.total_sales = s.rank := by
            rw [hsrank, hkeys, hpart]
          omega
      have := Finset.card_le_card hsub
      have hkept := denseRank_kept_card_le windowOrder_t3Gt keys 3
      omega
  · unfold task3_top_hours_by_category
    rw [← List.countP_eq_length_filter, ← List.countP_eq_length_filter, List.countP_map]
    exact List.Perm.countP_eq _ (sortByCmp_perm _ _)

/-- C7 witness: the Task 3 invariant theorem applied to a concrete table. -/
theorem c7_task3_hour_invariants_witness :
    (∀ r ∈ task3_top_hours_by_category
        [⟨"M1", "A", some 1, some 10, "Food", exTs0, 10, some 1⟩],
        ∃ h : Fin 24, r.hour = hourString h) ∧
    ((((ranked_hours [⟨"M1", "A", some 1, some 10, "Food", exTs0, 10, some 1⟩]).filter
        (fun r => decide (r.category = "Food"))).map
        (fun r => r.total_sales)).toFinset.card ≤ 3) ∧
    ((task3_top_hours_by_category
        [⟨"M1", "A", some 1, some 10, "Food", exTs0, 10, some 1⟩]).filter
        (fun r => decide (r.category = "Food"))).length =
      ((ranked_hours [⟨"M1", "A", some 1, some 10, "Food", exTs0, 10, some 1⟩]).filter
        (fun r => decide (r.category = "Food"))).length :=
  c7_task3_hour_invariants [⟨"M1", "A", some 1, some 10, "Food", exTs0, 10, some 1⟩] "Food"

/-- A timestamp at hour `h` for the tie counterexamples. -/
def exTsH (h : Fin 24) : Timestamp := ⟨⟨2023, by decide⟩, ⟨0, by decide⟩, 15, h, 0⟩

/-- The tied four-hour table: one category, four hours, equal sales. -/
def c7Df : List CanonicalTransaction :=
  [⟨"M1", "A", some 1, some 10, "Food", exTsH ⟨1, by decide⟩, 10, some 1⟩,
   ⟨"M1", "A", some 1, some 10, "Food", exTsH ⟨2, by decide⟩, 10, some 1⟩,
   ⟨"M1", "A", some 1, some 10, "Food", exTsH ⟨3, by decide⟩, 10, some 1⟩,
   ⟨"M1", "A", some 1, some 10, "Food", exTsH ⟨4, by decide⟩, 10, some 1⟩]

theorem c7_hourly_sales_eval : hourly_sales c7Df =
    [⟨"Food", ⟨1, by decide⟩, 10⟩, ⟨"Food", ⟨2, by decide⟩, 10⟩,
     ⟨"Food", ⟨3, by decide⟩, 10⟩, ⟨"Food", ⟨4, by decide⟩, 10⟩] := by
  have hkeys : groupKeys t3Key c7Df =
      [("Food", ⟨1, by decide⟩), ("Food", ⟨2, by decide⟩),
       ("Food", ⟨3, by decide⟩), ("Food", ⟨4, by decide⟩)] := by
    decide
  unfold hourly_sales
  rw [hkeys]
  simp only [List.map_cons, List.map_nil, List.cons.injEq, and_true]
  refine ⟨?_, ?_, ?_, ?_⟩ <;>
    · congr 1
      show ((groupRows t3Key c7Df _).map CanonicalTransaction.purchase_amount).sum = 10
      rw [show (groupRows t3Key c7Df _).map CanonicalTransaction.purchase_amount = [10] by decide]
      simp

/-- C7 counterexample: four hours of one category tie on total_sales, all get
dense rank 1, and the category keeps four rows — more than 3. -/
theorem c7_task3_counterexample :
    3 < ((task3_top_hours_by_category c7Df).filter
      (fun r => decide (r.category = "Food"))).length := by
  unfold task3_top_hours_by_category ranked_hours
  rw [c7_hourly_sales_eval]
  decide

/-! ### Claim C5: Task 1 group invariants -/

theorem mem_ranked_merchants_iff {df : List CanonicalTransaction} {r : T1Ranked} :
    r ∈ ranked_merchants df ↔
      r.toT1Agg ∈ monthly_aggregated df ∧
      r.rank = denseRank t1Gt
        ((t1PartOf (monthly_aggregated df) r.toT1Agg).map t1OrdKey) (t1OrdKey r.toT1Agg) ∧
      r.rank ≤ 5 := by
  unfold ranked_merchants
  rw [List.mem_filter, List.mem_map]
  constructor
  · rintro ⟨⟨s, hs, rfl⟩, hrank⟩
    rw [decide_eq_true_eq] at hrank
    exact ⟨hs, rfl, hrank⟩
  · rintro ⟨hmem, hrank, hle⟩
    refine ⟨⟨r.toT1Agg, hmem, ?_⟩, by rw [decide_eq_true_eq]; exact hle⟩
    cases r with
    | mk agg rk =>
      simp only at hrank
      rw [hrank]

theorem t1PartOf_congr {agg : List T1Agg} {a b : T1Agg}
    (h : (a.year, a.month, a.city_id) = (b.year, b.month, b.city_id)) :
    t1PartOf agg a = t1PartOf agg b := by
  unfold t1PartOf
  simp only [h]

theorem cmpOpt_cmpLO_refl (a : Option ℤ) : cmpOpt cmpLO a a = .eq := by
  cases a with
  | none => rfl
  | some x => exact cmpLO_eq_eq.mpr rfl

theorem t1SortCmp_rank_le {a b : T1Ranked} (h : cmpLe t1SortCmp a b)
    (hy : a.year = b.year) (hm : a.month = b.month) (hc : a.city_id = b.city_id) :
    a.rank ≤ b.rank := by
  unfold cmpLe t1SortCmp compareLex cmpOn at h
  have h1 : cmpLO a.year.val b.year.val = .eq := cmpLO_eq_eq.mpr (by rw [hy])
  have h2 : cmpLO (formatMMMyyyy a.year a.month).data (formatMMMyyyy b.year b.month).data = .eq :=
    cmpLO_eq_eq.mpr (by rw [hy, hm])
  have h3 : cmpOpt cmpLO a.city_id b.city_id = .eq := by
    rw [hc]
    exact cmpOpt_cmpLO_refl _
  rw [h1, h2, h3] at h
  exact cmpLO_ne_gt.mp h

theorem t1_rank_le_total {df : List CanonicalTransaction} {a b : T1Ranked}
    (ha : a ∈ ranked_merchants df) (hb : b ∈ ranked_merchants df)
    (hy : a.year = b.year) (hm : a.month = b.month) (hc : a.city_id = b.city_id)
    (hr : a.rank ≤ b.rank) : b.purchase_total ≤ a.purchase_total := by
  rw [mem_ranked_merchants_iff] at ha hb
  obtain ⟨haagg, harank, _⟩ := ha
  obtain ⟨hbagg, hbrank, _⟩ := hb
  by_contra hlt
  rw [not_le] at hlt
  set keys := (t1PartOf (monthly_aggregated df) a.toT1Agg).map t1OrdKey with hkeys
  have htriple : ((b.toT1Agg).year, (b.toT1Agg).month, (b.toT1Agg).city_id) =
      ((a.toT1Agg).year, (a.toT1Agg).month, (a.toT1Agg).city_id) := by
    show (b.year, b.month, b.city_id) = (a.year, a.month, a.city_id)
    rw [hy, hm, hc]
  have hpart : t1PartOf (monthly_aggregated df) b.toT1Agg =
      t1PartOf (monthly_aggregated df) a.toT1Agg := t1PartOf_congr htriple
  have hbmem : t1OrdKey b.toT1Agg ∈ keys := by
    rw [hkeys, ← hpart]
    refine List.mem_map_of_mem _ ?_
    exact List.mem_filter.mpr ⟨hbagg, by rw [decide_eq_true_eq]⟩
  have hgt : t1Gt (t1OrdKey b.toT1Agg) (t1OrdKey a.toT1Agg) = true :=
    t1Gt_iff.mpr (Or.inl hlt)
  have hlt2 := denseRank_lt_of_gt windowOrder_t1Gt hbmem hgt
  have hb2 : b.rank = denseRank t1Gt keys (t1OrdKey b.toT1Agg) := by
    rw [hbrank, hkeys, hpart]
  have ha2 : a.rank = denseRank t1Gt keys (t1OrdKey a.toT1Agg) := by
    rw [harank, hkeys]
  omega

theorem t1_kept_group_distinct_le (df : List CanonicalTransaction) (s : String) (c : Option ℤ)
    (kept : List T1Ranked)
    (h : ∀ r ∈ kept, r ∈ ranked_merchants df ∧ formatMMMyyyy r.year r.month = s ∧
      r.city_id = c) :
    ((kept.map fun r => (round2 r.purchase_total, r.no_of_sales)).toFinset.card ≤ 5) := by
  rcases kept with _ | ⟨r0, rest⟩
  · simp
  · obtain ⟨hr0r, hr0s, hr0c⟩ := h r0 (List.mem_cons_self _ _)
    set keys := (t1PartOf (monthly_aggregated df) r0.toT1Agg).map t1OrdKey with hkeys
    have hsub : (((r0 :: rest).map fun r =>
        (round2 r.purchase_total, r.no_of_sales)).toFinset : Finset (ℚ × ℕ)) ⊆
        (keys.toFinset.filter (fun k => denseRank t1Gt keys k ≤ 5)).image
          (fun k => (round2 k.1, k.2)) := by
      intro x hx
      rw [List.mem_toFinset, List.mem_map] at hx
      obtain ⟨r, hrmem, rfl⟩ := hx
      obtain ⟨hrr, hrs, hrc⟩ := h r hrmem
      rw [mem_ranked_merchants_iff] at hrr
      obtain ⟨hragg, hrrank, hrle⟩ := hrr
      have hfmt : formatMMMyyyy r.year r.month = formatMMMyyyy r0.year r0.month := by
        rw [hrs, hr0s]
      obtain ⟨hyy, hmo⟩ := formatMMMyyyy_inj hfmt
      have htriple : ((r.toT1Agg).year, (r.toT1Agg).month, (r.toT1Agg).city_id) =
          ((r0.toT1Agg).year, (r0.toT1Agg).month, (r0.toT1Agg).city_id) := by
        show (r.year, r.month, r.city_id) = (r0.year, r0.month, r0.city_id)
        rw [hyy, hmo, hrc, hr0c]
      have hpart : t1PartOf (monthly_aggregated df) r.toT1Agg =
          t1PartOf (monthly_aggregated df) r0.toT1Agg := t1PartOf_congr htriple
      rw [Finset.mem_image]
      refine ⟨t1OrdKey r.toT1Agg, ?_, rfl⟩
      rw [Finset.mem_filter]
      constructor
      · rw [List.mem_toFinset, hkeys, ← hpart]
        refine List.mem_map_of_mem _ ?_
        exact List.mem_filter.mpr ⟨hragg, by rw [decide_eq_true_eq]⟩
      · have : denseRank t1Gt keys (t1OrdKey r.toT1Agg) = r.rank := by
          rw [hrrank, hkeys, hpart]
        omega
    have h1 := Finset.card_le_card hsub
    have h2 := Finset.card_image_le (s := keys.toFinset.filter
      (fun k => denseRank t1Gt keys k ≤ 5)) (f := fun k : ℚ × ℕ => (round2 k.1, k.2))
    have h3 := denseRank_kept_card_le windowOrder_t1Gt keys 5
    omega

/-- C5 (amended): within every (month, city_id) group of the Task 1 output the
rows take at most 5 distinct (purchase_total, no_of_sales) value pairs (rows of
equal pairs share a dense rank, so a group may exceed 5 rows on ties), and in
output order — which sorts each group by rank — purchase_total is
non-increasing. -/
theorem c5_task1_group_invariants (df : List CanonicalTransaction) (s : String) (c : Option ℤ) :
    ((((task1_top_merchants_by_city_month df).filter
        (fun r => decide (r.month = s) && decide (r.city_id = c))).map
        (fun r => (r.purchase_total, r.no_of_sales))).toFinset.card ≤ 5) ∧
    (∀ i j (hi : i < (task1_top_merchants_by_city_month df).length)
        (hj : j < (task1_top_merchants_by_city_month df).length), i < j →
      ((task1_top_merchants_by_city_month df).get ⟨i, hi⟩).month =
        ((task1_top_merchants_by_city_month df).get ⟨j, hj⟩).month →
      ((task1_top_merchants_by_city_month df).get ⟨i, hi⟩).city_id =
        ((task1_top_merchants_by_city_month df).get ⟨j, hj⟩).city_id →
      ((task1_top_merchants_by_city_month df).get ⟨j, hj⟩).purchase_total ≤
        ((task1_top_merchants_by_city_month df).get ⟨i, hi⟩).purchase_total) := by
  constructor
  · unfold task1_top_merchants_by_city_month
    rw [List.filter_map, List.map_map]
    refine t1_kept_group_distinct_le df s c _ ?_
    intro r hr
    obtain ⟨hrs, hrp⟩ := List.mem_filter.mp hr
    simp only [Function.comp_apply, Bool.and_eq_true, decide_eq_true_eq] at hrp
    exact ⟨mem_sortByCmp.mp hrs, hrp.1, hrp.2⟩
  · intro i j hi hj hij hmon hcity
    simp only [List.get_eq_getElem] at hmon hcity ⊢
    simp only [task1_top_merchants_by_city_month, List.getElem_map] at hmon hcity ⊢
    have hi2 : i < (sortByCmp t1SortCmp (ranked_merchants df)).length := by
      have := hi
      unfold task1_top_merchants_by_city_month at this
      rwa [List.length_map] at this
    have hj2 : j < (sortByCmp t1SortCmp (ranked_merchants df)).length := by
      have := hj
      unfold task1_top_merchants_by_city_month at this
      rwa [List.length_map] at this
    have hsorted := sortByCmp_sorted t1SortCmp (ranked_merchants df)
    have hab := List.Sorted.rel_get_of_lt hsorted
      (show (⟨i, hi2⟩ : Fin (sortByCmp t1SortCmp (ranked_merchants df)).length) < ⟨j, hj2⟩
        from hij)
    simp only [List.get_eq_getElem] at hab
    obtain ⟨hyy, hmo⟩ := formatMMMyyyy_inj hmon
    have hrank := t1SortCmp_rank_le hab hyy hmo hcity
    have hmema : (sortByCmp t1SortCmp (ranked_merchants df))[i] ∈ ranked_merchants df :=
      mem_sortByCmp.mp (List.getElem_mem _)
    have hmemb : (sortByCmp t1SortCmp (ranked_merchants df))[j] ∈ ranked_merchants df :=
      mem_sortByCmp.mp (List.getElem_mem _)
    have htot := t1_rank_le_total hmema hmemb hyy hmo hcity hrank
    exact round2_mono htot

/-- C5 witness: the group-invariant theorem applied to a concrete table, month
string and city. -/
theorem c5_task1_group_invariants_witness :
    ((((task1_top_merchants_by_city_month
        [⟨"M1", "A", some 1, some 10, "Food", exTs0, 100, some 1⟩]).filter
        (fun r => decide (r.month = "Jan 2023") && decide (r.city_id = some 1))).map
        (fun r => (r.purchase_total, r.no_of_sales))).toFinset.card ≤ 5) ∧
    (∀ i j (hi : i < (task1_top_merchants_by_city_month
          [⟨"M1", "A", some 1, some 10, "Food", exTs0, 100, some 1⟩]).length)
        (hj : j < (task1_top_merchants_by_city_month
          [⟨"M1", "A", some 1, some 10, "Food", exTs0, 100, some 1⟩]).length), i < j →
      ((task1_top_merchants_by_city_month
          [⟨"M1", "A", some 1, some 10, "Food", exTs0, 100, some 1⟩]).get ⟨i, hi⟩).month =
        ((task1_top_merchants_by_city_month
          [⟨"M1", "A", some 1, some 10, "Food", exTs0, 100, some 1⟩]).get ⟨j, hj⟩).month →
      ((task1_top_merchants_by_city_month
          [⟨"M1", "A", some 1, some 10, "Food", exTs0, 100, some 1⟩]).get ⟨i, hi⟩).city_id =
        ((task1_top_merchants_by_city_month
          [⟨"M1", "A", some 1, some 10, "Food", exTs0, 100, some 1⟩]).get ⟨j, hj⟩).city_id →
      ((task1_top_merchants_by_city_month
          [⟨"M1", "A", some 1, some 10, "Food", exTs0, 100, some 1⟩]).get ⟨j, hj⟩).purchase_total ≤
        ((task1_top_merchants_by_city_month
          [⟨"M1", "A", some 1, some 10, "Food", exTs0, 100, some 1⟩]).get
          ⟨i, hi⟩).purchase_total) :=
  c5_task1_group_invariants [⟨"M1", "A", some 1, some 10, "Food", exTs0, 100, some 1⟩]
    "Jan 2023" (some 1)

/-- The tied six-merchant table: one city and month, six merchants with equal
totals and sale counts. -/
def c5Df : List CanonicalTransaction :=
  [⟨"M1", "A", some 1, some 10, "Food", exTs0, 100, some 1⟩,
   ⟨"M2", "B", some 1, some 10, "Food", exTs0, 100, some 1⟩,
   ⟨"M3", "C", some 1, some 10, "Food", exTs0, 100, some 1⟩,
   ⟨"M4", "D", some 1, some 10, "Food", exTs0, 100, some 1⟩,
   ⟨"M5", "E", some 1, some 10, "Food", exTs0, 100, some 1⟩,
   ⟨"M6", "F", some 1, some 10, "Food", exTs0, 100, some 1⟩]

theorem c5_monthly_aggregated_eval : monthly_aggregated c5Df =
    [⟨⟨2023, by decide⟩, ⟨0, by decide⟩, some 1, "A", 100, 1⟩,
     ⟨⟨2023, by decide⟩, ⟨0, by decide⟩, some 1, "B", 100, 1⟩,
     ⟨⟨2023, by decide⟩, ⟨0, by decide⟩, some 1, "C", 100, 1⟩,
     ⟨⟨2023, by decide⟩, ⟨0, by decide⟩, some 1, "D", 100, 1⟩,
     ⟨⟨2023, by decide⟩, ⟨0, by decide⟩, some 1, "E", 100, 1⟩,
     ⟨⟨2023, by decide⟩, ⟨0, by decide⟩, some 1, "F", 100, 1⟩] := by
  have hkeys : groupKeys t1Key c5Df =
      [(⟨2023, by decide⟩, ⟨0, by decide⟩, some 1, "A"),
       (⟨2023, by decide⟩, ⟨0, by decide⟩, some 1, "B"),
       (⟨2023, by decide⟩, ⟨0, by decide⟩, some 1, "C"),
       (⟨2023, by decide⟩, ⟨0, by decide⟩, some 1, "D"),
       (⟨2023, by decide⟩, ⟨0, by decide⟩, some 1, "E"),
       (⟨2023, by decide⟩, ⟨0, by decide⟩, some 1, "F")] := by
    decide
  unfold monthly_aggregated
  rw [hkeys]
  simp only [List.map_cons, List.map_nil, List.cons.injEq, and_true]
  refine ⟨?_, ?_, ?_, ?_, ?_, ?_⟩ <;>
    · congr 1
      show ((groupRows t1Key c5Df _).map CanonicalTransaction.purchase_amount).sum = 100
      rw [show (groupRows t1Key c5Df _).map CanonicalTransaction.purchase_amount = [100]
        by decide]
      simp

/-- C5 counterexample: six merchants of one city and month tie on
(purchase_total, no_of_sales); all six get dense rank 1 and the group keeps six
rows — more than 5. -/
theorem c5_task1_counterexample :
    5 < ((task1_top_merchants_by_city_month c5Df).filter
      (fun r => decide (r.month = "Jan 2023") && decide (r.city_id = some 1))).length := by
  unfold task1_top_merchants_by_city_month ranked_merchants
  rw [c5_monthly_aggregated_eval]
  decide

/-! ### Claim C4: the Task 1 output order -/

/-- A January and a February transaction of the same merchant and city. -/
def c4Df : List CanonicalTransaction :=
  [⟨"M1", "A", some 1, some 10, "Food", ⟨⟨2023, by decide⟩, ⟨0, by decide⟩, 15, ⟨10, by decide⟩, 0⟩,
      100, some 1⟩,
   ⟨"M1", "A", some 1, some 10, "Food", ⟨⟨2023, by decide⟩, ⟨1, by decide⟩, 15, ⟨10, by decide⟩, 0⟩,
      100, some 1⟩]

theorem c4_monthly_aggregated_eval : monthly_aggregated c4Df =
    [⟨⟨2023, by decide⟩, ⟨0, by decide⟩, some 1, "A", 100, 1⟩,
     ⟨⟨2023, by decide⟩, ⟨1, by decide⟩, some 1, "A", 100, 1⟩] := by
  have hkeys : groupKeys t1Key c4Df =
      [(⟨2023, by decide⟩, ⟨0, by decide⟩, some 1, "A"),
       (⟨2023, by decide⟩, ⟨1, by decide⟩, some 1, "A")] := by
    decide
  unfold monthly_aggregated
  rw [hkeys]
  simp only [List.map_cons, List.map_nil, List.cons.injEq, and_true]
  refine ⟨?_, ?_⟩ <;>
    · congr 1
      show ((groupRows t1Key c4Df _).map CanonicalTransaction.purchase_amount).sum = 100
      rw [show (groupRows t1Key c4Df _).map CanonicalTransaction.purchase_amount = [100]
        by decide]
      simp

/-- C4: on a table with a January 2023 and a February 2023 transaction of the
same city, the final `orderBy` sorts by the formatted month string — the
projected `month` alias shadows the numeric month — so the February row
precedes the January row: the output is not in calendar order. -/
theorem c4_month_sort_not_chronological :
    (task1_top_merchants_by_city_month c4Df).map T1Out.month =
      ["Feb 2023", "Jan 2023"] := by
  unfold task1_top_merchants_by_city_month ranked_merchants
  rw [c4_monthly_aggregated_eval]
  decide
